import Mathlib

/-!
Verification development for the IAVL-backed versioned commit store
(`store/iavl`): a key-value `Store` wrapping a versioned, authenticated
tree, with ABCI query dispatch, proof construction, and snapshot export.

The underlying tree is modelled shallowly: byte strings are `List Nat`,
the committed history is an association list from version numbers to
key-value contents, and the working (uncommitted) state is a key-value
association list.  Operations that panic in the source are modelled with
an explicit panic message (`Option String` alongside the state, or the
`PanicOr` wrapper), kept distinct from operations returning a recoverable
`error` (modelled with `Except String`).
-/

namespace IavlStore

/-- Byte strings (`[]byte` contents). -/
abbrev Bytes := List Nat

/-- Lookup in a key-value association list; `none` models a nil result. -/
def kvGet : List (Bytes × Bytes) → Bytes → Option Bytes
  | [], _ => none
  | (k', v) :: rest, k => if k' = k then some v else kvGet rest k

/-- Key membership in a key-value association list. -/
def kvHas : List (Bytes × Bytes) → Bytes → Bool
  | [], _ => false
  | (k', _) :: rest, k => if k' = k then true else kvHas rest k

/-- Remove a key from a key-value association list. -/
def kvRemove : List (Bytes × Bytes) → Bytes → List (Bytes × Bytes)
  | [], _ => []
  | (k', v) :: rest, k =>
    if k' = k then kvRemove rest k else (k', v) :: kvRemove rest k

/-- Bind a key to a value in a key-value association list. -/
def kvSet (l : List (Bytes × Bytes)) (k : Bytes) (v : Bytes) :
    List (Bytes × Bytes) :=
  (k, v) :: kvRemove l k

/-- Strict lexicographic order on byte strings, for iteration order. -/
def bytesLt : Bytes → Bytes → Bool
  | [], [] => false
  | [], _ :: _ => true
  | _ :: _, [] => false
  | a :: as, b :: bs => if a < b then true else if b < a then false else bytesLt as bs

/-- Insert a pair into a key-sorted list of pairs. -/
def insertPairSorted (p : Bytes × Bytes) : List (Bytes × Bytes) → List (Bytes × Bytes)
  | [] => [p]
  | q :: qs => if bytesLt p.1 q.1 then p :: q :: qs else q :: insertPairSorted p qs

/-- Sort key-value pairs by key, ascending (the tree's iteration order). -/
def sortPairs (l : List (Bytes × Bytes)) : List (Bytes × Bytes) :=
  l.foldr insertPairSorted []

/-- Length-prefixed encoding of one byte string. -/
def encodeBytes (b : Bytes) : List Nat := b.length :: b

/-- Modelled from the spec: the deterministic root digest of a tree's
contents ("reproducible bit-for-bit by any correct replica").  The
node-level Merkle hashing lives in the external iavl library; it is
modelled here as an injective encoding of the sorted contents. -/
def treeHashOf (entries : List (Bytes × Bytes)) : Bytes :=
  (sortPairs entries).foldr (fun p acc => encodeBytes p.1 ++ encodeBytes p.2 ++ acc) [0]

/-- One committed (immutable) version of the tree: its version number and
its key-value contents.  `iavl.ImmutableTree{}` (the zero value) is the
empty snapshot `⟨0, []⟩`. -/
structure Snapshot where
  version : Int
  entries : List (Bytes × Bytes)
deriving DecidableEq

/-- State of a mutable tree (`iavl.MutableTree`): the latest committed
version number (0 when nothing was committed), the committed history, and
the working (uncommitted) key-value contents. -/
structure MutableState where
  version : Int
  committed : List (Int × List (Bytes × Bytes))
  working : List (Bytes × Bytes)
deriving DecidableEq

/-- Look a version up in the committed history. -/
def lookupVersion : List (Int × List (Bytes × Bytes)) → Int → Option (List (Bytes × Bytes))
  | [], _ => none
  | (v, es) :: rest, target => if v = target then some es else lookupVersion rest target

/-- Modelled from the spec: the external Tree capability (§6) consumed by
the store, either a mutable tree owning the working version or a
read-only immutable snapshot (the `immutableTree` wrapper, whose
mutating methods panic). -/
inductive Tree where
  | mutableT (ms : MutableState)
  | immutableT (snap : Snapshot)
deriving DecidableEq

/-- Read a key from the tree (working contents for a mutable tree). -/
def Tree.Get : Tree → Bytes → Option Bytes
  | .mutableT ms, k => kvGet ms.working k
  | .immutableT snap, k => kvGet snap.entries k

/-- Key membership in the tree. -/
def Tree.Has : Tree → Bytes → Bool
  | .mutableT ms, k => kvHas ms.working k
  | .immutableT snap, k => kvHas snap.entries k

/-- Write a key into the tree's working contents.  Modelled from the
spec: mutating an immutable snapshot is a programming error and panics
(the message is returned instead of a new state). -/
def Tree.Set : Tree → Bytes → Bytes → Tree × Option String
  | .mutableT ms, k, v => (.mutableT { ms with working := kvSet ms.working k v }, none)
  | .immutableT snap, _, _ =>
    (.immutableT snap, some "cannot call Set on an immutable IAVL tree")

/-- Remove a key from the tree's working contents; panics on an immutable
snapshot (modelled from the spec, as for `Tree.Set`). -/
def Tree.Remove : Tree → Bytes → Tree × Option String
  | .mutableT ms, k => (.mutableT { ms with working := kvRemove ms.working k }, none)
  | .immutableT snap, _ =>
    (.immutableT snap, some "cannot call Remove on an immutable IAVL tree")

/-- The tree's current (latest committed) version. -/
def Tree.Version : Tree → Int
  | .mutableT ms => ms.version
  | .immutableT snap => snap.version

/-- Whether a version is stored.  An immutable snapshot holds exactly its
own version (modelled from the spec's Tree capability). -/
def Tree.VersionExists : Tree → Int → Bool
  | .mutableT ms, v => (lookupVersion ms.committed v).isSome
  | .immutableT snap, v => snap.version = v

/-- Read a key at a specific committed version; `none` when the version
is not stored. -/
def Tree.GetVersioned : Tree → Bytes → Int → Option Bytes
  | .mutableT ms, k, version =>
    match lookupVersion ms.committed version with
    | some entries => kvGet entries k
    | none => none
  | .immutableT snap, k, version =>
    if snap.version = version then kvGet snap.entries k else none

/-- Fetch the immutable snapshot at a version; errors when the version is
not stored (the iavl `GetImmutable` error). -/
def Tree.GetImmutable : Tree → Int → Except String Snapshot
  | .mutableT ms, v =>
    match lookupVersion ms.committed v with
    | some entries => .ok ⟨v, entries⟩
    | none => .error "version does not exist"
  | .immutableT snap, v =>
    if snap.version = v then .ok snap
    else .error "cannot get immutable tree at a different version"

/-- The root hash reported by the tree: the hash of the latest committed
version (iavl's `lastSaved`), not of the pending working contents. -/
def Tree.Hash : Tree → Bytes
  | .mutableT ms =>
    match lookupVersion ms.committed ms.version with
    | some entries => treeHashOf entries
    | none => []
  | .immutableT snap => treeHashOf snap.entries

/-- All key-value pairs visible to iteration on this tree handle. -/
def Tree.entriesList : Tree → List (Bytes × Bytes)
  | .mutableT ms => ms.working
  | .immutableT snap => snap.entries

/-- The `{Version, Hash}` fingerprint of a committed state. -/
structure CommitID where
  version : Int
  hash : Bytes
deriving DecidableEq

/-- The IAVL store: a thin wrapper around a `Tree`. -/
structure Store where
  tree : Tree
deriving DecidableEq

/-- Modelled from the spec: the key validity assertion
(`types.AssertValidKey`) — the key must be non-nil and non-empty. -/
def assertValidKeyB (key : Bytes) : Bool := !key.isEmpty

/-- Modelled from the spec: the value validity assertion
(`types.AssertValidValue`) — the value must be non-nil (`none` models a
nil slice; an empty stored value `some []` is valid). -/
def assertValidValueB (value : Option Bytes) : Bool := value.isSome

/-- Modelled from the spec: the signal raised by a key validity failure. -/
def invalidKeySignal : String := "InvalidKey: key is nil or empty"

/-- Modelled from the spec: the signal raised by a value validity failure. -/
def invalidValueSignal : String := "InvalidValue: value is nil"

/-- `Store.Set`: assert key and value validity, then write into the
working version.  A validation failure or a write to an immutable tree
panics (message in the second component) and leaves the store unchanged. -/
def Store.Set (st : Store) (key : Bytes) (value : Option Bytes) :
    Store × Option String :=
  if assertValidKeyB key = false then (st, some invalidKeySignal)
  else if assertValidValueB value = false then (st, some invalidValueSignal)
  else
    match Tree.Set st.tree key (value.getD []) with
    | (t, p) => (⟨t⟩, p)

/-- `Store.Get`: read a key from the working version; `none` is the
absent marker (a nil result), a normal outcome. -/
def Store.Get (st : Store) (key : Bytes) : Option Bytes :=
  Tree.Get st.tree key

/-- `Store.Has`: key membership in the working version. -/
def Store.Has (st : Store) (key : Bytes) : Bool :=
  Tree.Has st.tree key

/-- `Store.Delete`: remove a key from the working version (a no-op on an
absent key); panics on an immutable tree. -/
def Store.Delete (st : Store) (key : Bytes) : Store × Option String :=
  match Tree.Remove st.tree key with
  | (t, p) => (⟨t⟩, p)

/-- `Store.VersionExists`: whether a version is stored. -/
def Store.VersionExists (st : Store) (version : Int) : Bool :=
  Tree.VersionExists st.tree version

/-- `Store.LastCommitID`: the most recently committed `{Version, Hash}`. -/
def Store.LastCommitID (st : Store) : CommitID :=
  ⟨Tree.Version st.tree, Tree.Hash st.tree⟩

/-- `Store.GetImmutable`: a read-only store at `version`.  When the
version does not exist (or was pruned), an empty immutable tree is used
and no error is returned. -/
def Store.GetImmutable (st : Store) (version : Int) : Except String Store :=
  if Store.VersionExists st version = false then
    .ok ⟨.immutableT ⟨0, []⟩⟩
  else
    match Tree.GetImmutable st.tree version with
    | .error e => .error e
    | .ok snap => .ok ⟨.immutableT snap⟩

/-- Outcome of an operation whose only failure mode is a panic (never a
recoverable error return). -/
inductive PanicOr (α : Type) where
  | panicked (msg : String)
  | ok (val : α)
deriving DecidableEq

/-- Modelled from the spec: a pruning configuration, fixed at
construction of the store. -/
structure PruningOptions where
  keepRecent : Nat
  interval : Nat
deriving DecidableEq

/-- `Store.SetPruning` panics unconditionally: pruning options are
provided at initialization, since iavl accepts them directly. -/
def Store.SetPruning (_st : Store) (_opts : PruningOptions) : PanicOr Unit :=
  .panicked "cannot set pruning options on an initialized IAVL store"

/-- `Store.GetPruning` panics unconditionally, as `Store.SetPruning`. -/
def Store.GetPruning (_st : Store) : PanicOr PruningOptions :=
  .panicked "cannot get pruning options on an initialized IAVL store"

/-- An ABCI query request: path, payload, requested height, proof flag. -/
structure RequestQuery where
  path : String
  data : Bytes
  height : Int
  prove : Bool
deriving DecidableEq

/-- Modelled from the spec: a commitment proof over a single key bound to
a root hash — either membership (key maps to value) or non-membership
(key absent). -/
inductive CommitmentProof where
  | membership (key value root : Bytes)
  | nonMembership (key root : Bytes)
deriving DecidableEq

/-- The commitment-operation envelope wrapping a proof together with the
key it is about (`types.NewIavlCommitmentOp(key, proof).ProofOp()`). -/
structure ProofOp where
  opType : String
  key : Bytes
  proof : CommitmentProof
deriving DecidableEq

/-- Build the iavl commitment-operation envelope for a key and proof. -/
def mkIavlCommitmentOp (key : Bytes) (p : CommitmentProof) : ProofOp :=
  ⟨"ics23:iavl", key, p⟩

/-- An ABCI query response.  `code = 0` is success; a nonzero code marks
a hard failure, while soft errors travel in `log`. -/
structure ResponseQuery where
  code : Nat := 0
  log : String := ""
  height : Int := 0
  key : Bytes := []
  value : Option Bytes := none
  proofOps : Option (List ProofOp) := none
deriving DecidableEq

/-- Modelled from the spec: `sdkerrors.QueryResult` — a hard-failure
response with a nonzero code and the error message in `log`. -/
def queryResult (code : Nat) (msg : String) : ResponseQuery :=
  { code := code, log := msg }

/-- The iavl "version does not exist" error message. -/
def errVersionDoesNotExist : String := "version does not exist"

/-- Modelled from the spec: building a membership proof succeeds exactly
when the key is present in the snapshot, binding key, value and the
snapshot's root. -/
def getMembershipProof (snap : Snapshot) (key : Bytes) : Except String CommitmentProof :=
  match kvGet snap.entries key with
  | some v => .ok (.membership key v (treeHashOf snap.entries))
  | none => .error "cannot create ExistenceProof: key not in state"

/-- Modelled from the spec: building a non-membership proof succeeds
exactly when the key is absent from the snapshot. -/
def getNonMembershipProof (snap : Snapshot) (key : Bytes) : Except String CommitmentProof :=
  match kvGet snap.entries key with
  | some _ => .error "cannot create NonExistenceProof: key is in state"
  | none => .ok (.nonMembership key (treeHashOf snap.entries))

/-- `getProofFromTree`: after a lookup whose outcome `hasValue` is known,
build the matching proof type; a failure to build it is a panic, never an
error return. -/
def getProofFromTree (tree : Snapshot) (key : Bytes) (hasValue : Bool) :
    PanicOr (List ProofOp) :=
  if hasValue then
    match getMembershipProof tree key with
    | .error e => .panicked ("unexpected value for empty proof: " ++ e)
    | .ok cp => .ok [mkIavlCommitmentOp key cp]
  else
    match getNonMembershipProof tree key with
    | .error e => .panicked ("unexpected error for nonexistence proof: " ++ e)
    | .ok cp => .ok [mkIavlCommitmentOp key cp]

/-- `getHeight`: resolve the request height, with 0 defaulting to
`latest - 1` when that version exists and to `latest` otherwise. -/
def getHeight (tree : Tree) (req : RequestQuery) : Int :=
  if req.height = 0 then
    if Tree.VersionExists tree (Tree.Version tree - 1) then Tree.Version tree - 1
    else Tree.Version tree
  else req.height

/-- Modelled from the spec: the pairs visited by
`types.KVStorePrefixIterator(st, sub)` — all working-store pairs whose
key extends the given prefix, in ascending key order. -/
def prefixScan (st : Store) (sub : Bytes) : List (Bytes × Bytes) :=
  sortPairs ((Tree.entriesList st.tree).filter (fun p => sub.isPrefixOf p.1))

/-- Modelled from the spec: the serialization of a `kv.Pairs` list
(protobuf marshalling, which cannot fail on these messages). -/
def marshalPairs (ps : List (Bytes × Bytes)) : Except String Bytes :=
  .ok (ps.foldr (fun p acc => encodeBytes p.1 ++ encodeBytes p.2 ++ acc) [])

/-- The `"/key"` branch of `Store.Query`: echo the key, soft-fail when
the resolved height is not stored, otherwise read the value at that
height and optionally attach a membership or non-membership proof. -/
def queryKey (st : Store) (req : RequestQuery) (height : Int) :
    PanicOr ResponseQuery :=
  if Store.VersionExists st height then
    match Tree.GetVersioned st.tree req.data height, req.prove with
    | value, false => .ok { height := height, key := req.data, value := value }
    | value, true =>
      match Tree.GetImmutable st.tree height with
      | .error e =>
        .panicked ("version exists in store but could not retrieve corresponding versioned tree in store, " ++ e)
      | .ok iTree =>
        match getProofFromTree iTree req.data value.isSome with
        | .panicked m => .panicked m
        | .ok ops =>
          .ok { height := height, key := req.data, value := value, proofOps := some ops }
  else
    .ok { height := height, key := req.data, log := errVersionDoesNotExist }

/-- The `"/subspace"` branch of `Store.Query`: dump the working-store
pairs under the prefix, serialized, with the prefix echoed as the key. -/
def querySubspace (st : Store) (req : RequestQuery) (height : Int) :
    PanicOr ResponseQuery :=
  match marshalPairs (prefixScan st req.data) with
  | .error e => .panicked ("failed to marshal KV pairs: " ++ e)
  | .ok bz => .ok { height := height, key := req.data, value := some bz }

/-- `Store.Query`: reject empty payloads as malformed, resolve the
height, then dispatch on the path; unknown paths hard-fail.  The store is
returned alongside the response (the call reads but never writes it). -/
def Store.Query (st : Store) (req : RequestQuery) :
    Store × PanicOr ResponseQuery :=
  if req.data = [] then
    (st, .ok (queryResult 2 "query cannot be zero length"))
  else if req.path = "/key" then
    (st, queryKey st req (getHeight st.tree req))
  else if req.path = "/subspace" then
    (st, querySubspace st req (getHeight st.tree req))
  else
    (st, .ok (queryResult 6 ("unexpected query path: " ++ req.path)))

/-- A snapshot exporter: the stream of node records for a tree, modelled
from the spec as the snapshot it reconstructs. -/
structure Exporter where
  snap : Snapshot
deriving DecidableEq

/-- `Store.Export`: fetch the immutable store at the version, check its
tree is an immutable tree, and return an exporter over it. -/
def Store.Export (st : Store) (version : Int) : Except String Exporter :=
  match Store.GetImmutable st version with
  | .error e =>
    .error ("iavl export failed for version " ++ toString version ++ ": " ++ e)
  | .ok istore =>
    match istore.tree with
    | .immutableT snap => .ok ⟨snap⟩
    | .mutableT _ =>
      .error ("iavl export failed: unable to fetch tree for version " ++ toString version)

/-! Helper lemmas about the association-list operations. -/

theorem kvGet_kvRemove_self (l : List (Bytes × Bytes)) (k : Bytes) :
    kvGet (kvRemove l k) k = none := by
  induction l with
  | nil => rfl
  | cons p rest ih =>
    by_cases h : p.1 = k
    · simpa [kvRemove, h] using ih
    · simpa [kvRemove, kvGet, h] using ih

theorem kvGet_kvSet_self (l : List (Bytes × Bytes)) (k v : Bytes) :
    kvGet (kvSet l k v) k = some v := by
  simp [kvSet, kvGet]

theorem kvHas_eq_isSome (l : List (Bytes × Bytes)) (k : Bytes) :
    kvHas l k = (kvGet l k).isSome := by
  induction l with
  | nil => rfl
  | cons p rest ih =>
    by_cases h : p.1 = k <;> simp [kvHas, kvGet, h, ih]

/-! Sample states used by the witness theorems. -/

/-- A freshly initialized store: no committed version, empty working set. -/
def emptyStore : Store := ⟨.mutableT ⟨0, [], []⟩⟩

/-- A store that committed version 1 (containing key `[1]`). -/
def oneCommitStore : Store := ⟨.mutableT ⟨1, [(1, [([1], [9])])], []⟩⟩

/-- A store that committed versions 1 and 2. -/
def twoCommitStore : Store :=
  ⟨.mutableT ⟨2, [(1, [([1], [10])]), (2, [([1], [11])])], [([3], [30])]⟩⟩

/-! The claims. -/

/-- C1: for every query request, if the request's height is 0 the
resolved height is `latest - 1` when that version exists in the tree and
`latest` (the tree's current version) otherwise; a non-zero requested
height resolves to itself. -/
theorem getHeight_resolves (tree : Tree) (req : RequestQuery) :
    getHeight tree req =
      if req.height = 0 then
        if Tree.VersionExists tree (Tree.Version tree - 1) then Tree.Version tree - 1
        else Tree.Version tree
      else req.height := rfl

/-- C2: on the working store, `Set k v` followed by `Get k` returns `v`
(and does not panic), `Delete k` followed by `Get k` returns absent (and
does not panic), and on every store `Has` returns true exactly when `Get`
returns a present value. -/
theorem store_set_get_delete_has (ms : MutableState) (k v : Bytes)
    (hk : k ≠ []) :
    Store.Get (Store.Set ⟨.mutableT ms⟩ k (some v)).1 k = some v ∧
    (Store.Set ⟨.mutableT ms⟩ k (some v)).2 = none ∧
    Store.Get (Store.Delete ⟨.mutableT ms⟩ k).1 k = none ∧
    (Store.Delete ⟨.mutableT ms⟩ k).2 = none ∧
    (∀ (st : Store) (key : Bytes), Store.Has st key = (Store.Get st key).isSome) := by
  refine ⟨?_, ?_, ?_, ?_, ?_⟩
  · simp [Store.Set, Store.Get, Tree.Set, Tree.Get, assertValidKeyB, assertValidValueB,
      hk, kvGet_kvSet_self]
  · simp [Store.Set, Tree.Set, assertValidKeyB, assertValidValueB, hk]
  · simp [Store.Delete, Store.Get, Tree.Remove, Tree.Get, kvGet_kvRemove_self]
  · simp [Store.Delete, Tree.Remove]
  · intro st key
    cases st with
    | mk t => cases t <;> simp [Store.Has, Store.Get, Tree.Has, Tree.Get, kvHas_eq_isSome]

/-- Witness for C2 at a concrete store, key and value. -/
theorem store_set_get_delete_has_witness :
    Store.Get (Store.Set ⟨.mutableT ⟨0, [], []⟩⟩ [1] (some [2])).1 [1] = some [2] ∧
    (Store.Set ⟨.mutableT ⟨0, [], []⟩⟩ [1] (some [2])).2 = none ∧
    Store.Get (Store.Delete ⟨.mutableT ⟨0, [], []⟩⟩ [1]).1 [1] = none ∧
    (Store.Delete ⟨.mutableT ⟨0, [], []⟩⟩ [1]).2 = none ∧
    (∀ (st : Store) (key : Bytes), Store.Has st key = (Store.Get st key).isSome) :=
  store_set_get_delete_has ⟨0, [], []⟩ [1] [2] (by decide)

/-- C7: `Set` with an invalid (nil/empty) key panics with the invalid-key
signal and leaves the store unchanged; a valid key with an invalid (nil)
value panics with the invalid-value signal and leaves the store
unchanged; with a valid key and value the validation branch is not taken
and the write proceeds into the working tree. -/
theorem set_validation (st : Store) (k : Bytes) (v : Option Bytes) :
    (assertValidKeyB k = false → Store.Set st k v = (st, some invalidKeySignal)) ∧
    (assertValidKeyB k = true → assertValidValueB v = false →
      Store.Set st k v = (st, some invalidValueSignal)) ∧
    (∀ (ms : MutableState) (val : Bytes), assertValidKeyB k = true →
      v = some val → st.tree = .mutableT ms →
      Store.Set st k v =
        (⟨.mutableT { ms with working := kvSet ms.working k val }⟩, none)) := by
  refine ⟨?_, ?_, ?_⟩
  · intro h; simp [Store.Set, h]
  · intro hk hv; simp [Store.Set, hk, hv]
  · intro ms val hk hv htree
    cases st with
    | mk t =>
      cases htree
      simp [Store.Set, Tree.Set, hk, hv, assertValidValueB]

/-- Witness for C7: the three validation outcomes at concrete inputs. -/
theorem set_validation_witness :
    Store.Set emptyStore [] (some [1]) = (emptyStore, some invalidKeySignal) ∧
    Store.Set emptyStore [1] none = (emptyStore, some invalidValueSignal) ∧
    Store.Set emptyStore [1] (some [2]) =
      (⟨.mutableT { version := 0, committed := [], working := kvSet [] [1] [2] }⟩, none) :=
  ⟨(set_validation emptyStore [] (some [1])).1 rfl,
   (set_validation emptyStore [1] none).2.1 rfl rfl,
   (set_validation emptyStore [1] (some [2])).2.2 ⟨0, [], []⟩ [2] rfl rfl rfl⟩

/-- C9: the pruning accessors panic on every initialized store,
regardless of arguments or state. -/
theorem pruning_accessors_panic (st : Store) (opts : PruningOptions) :
    Store.SetPruning st opts =
      .panicked "cannot set pruning options on an initialized IAVL store" ∧
    Store.GetPruning st =
      .panicked "cannot get pruning options on an initialized IAVL store" :=
  ⟨rfl, rfl⟩

/-- C10: `Query` is read-only — the store after the call is the store
before it, so the working contents at every key and the `LastCommitID`
are unchanged, on every path. -/
theorem query_readonly (st : Store) (req : RequestQuery) :
    (Store.Query st req).1 = st ∧
    (∀ k, Store.Get (Store.Query st req).1 k = Store.Get st k) ∧
    Store.LastCommitID (Store.Query st req).1 = Store.LastCommitID st := by
  have h : (Store.Query st req).1 = st := by
    unfold Store.Query
    split
    · rfl
    · split
      · rfl
      · split <;> rfl
  exact ⟨h, fun k => by rw [h], by rw [h]⟩

/-- A store with no committed version but a non-empty working set. -/
def zeroCommitStore : Store := ⟨.mutableT ⟨0, [], [([1], [7])]⟩⟩

/-- C3 counterexample: `Export` of version 5 on a store where version 5
does not exist succeeds with an exporter (over the empty immutable tree)
instead of failing with an error. -/
theorem export_missing_version_succeeds :
    Store.VersionExists emptyStore 5 = false ∧
    Store.Export emptyStore 5 = .ok ⟨⟨0, []⟩⟩ := by
  refine ⟨rfl, rfl⟩

/-- C3 amended: for every version that is not stored (never committed or
pruned), `Export` does not fail — it returns an exporter over the empty
immutable tree with no error; the error returns are reserved for a
failing immutable-tree fetch. -/
theorem export_missing_version_amended (st : Store) (v : Int)
    (h : Store.VersionExists st v = false) :
    Store.Export st v = .ok ⟨⟨0, []⟩⟩ := by
  unfold Store.Export Store.GetImmutable
  simp [h]

/-- Witness for the amended C3 at a concrete store and version. -/
theorem export_missing_version_amended_witness :
    Store.Export oneCommitStore 7 = .ok ⟨⟨0, []⟩⟩ :=
  export_missing_version_amended oneCommitStore 7 rfl

/-- C4: a `"/key"` query (with a non-empty payload) whose resolved height
is not a stored version is not a hard failure: code 0, the "version does
not exist" message in `log`, an absent value, the payload echoed as the
key, and the resolved height echoed back. -/
theorem query_missing_version (st : Store) (req : RequestQuery)
    (hpath : req.path = "/key") (hdata : req.data ≠ [])
    (hver : Store.VersionExists st (getHeight st.tree req) = false) :
    Store.Query st req =
      (st, .ok { code := 0, log := errVersionDoesNotExist,
                 height := getHeight st.tree req, key := req.data,
                 value := none, proofOps := none }) := by
  unfold Store.Query queryKey
  simp [hpath, hdata, hver]

/-- Witness for C4 at a concrete store and request. -/
theorem query_missing_version_witness :
    Store.Query oneCommitStore ⟨"/key", [9], 5, false⟩ =
      (oneCommitStore, .ok { code := 0, log := errVersionDoesNotExist,
                             height := 5, key := [9], value := none, proofOps := none }) :=
  query_missing_version oneCommitStore ⟨"/key", [9], 5, false⟩ rfl (by decide) rfl

/-- C5: when the version does not exist, `GetImmutable` returns a valid
store over the empty immutable tree and no error; when it exists, it
returns a read-only view bound to that version — its snapshot carries the
version, mutations leave it unchanged (`Set`) or panic (`Delete`), and
its reads agree with the versioned reads of the original tree. -/
theorem getImmutable_total (st : Store) (v : Int) :
    (Store.VersionExists st v = false →
      Store.GetImmutable st v = .ok ⟨.immutableT ⟨0, []⟩⟩) ∧
    (Store.VersionExists st v = true →
      ∃ snap, Store.GetImmutable st v = .ok ⟨.immutableT snap⟩ ∧
        snap.version = v ∧
        (∀ key val, (Store.Set ⟨.immutableT snap⟩ key val).1 = ⟨.immutableT snap⟩) ∧
        (∀ key, ((Store.Delete ⟨.immutableT snap⟩ key).2).isSome = true) ∧
        (∀ key, Store.Get ⟨.immutableT snap⟩ key = Tree.GetVersioned st.tree key v)) := by
  constructor
  · intro h
    simp [Store.GetImmutable, h]
  · intro h
    obtain ⟨t⟩ := st
    have hro : ∀ (snap : Snapshot) (key : Bytes) (val : Option Bytes),
        (Store.Set ⟨.immutableT snap⟩ key val).1 = ⟨.immutableT snap⟩ := by
      intro snap key val
      unfold Store.Set
      split
      · rfl
      · split
        · rfl
        · simp [Tree.Set]
    cases t with
    | mutableT ms =>
      have hsome : (lookupVersion ms.committed v).isSome = true := by
        simpa [Store.VersionExists, Tree.VersionExists] using h
      obtain ⟨entries, heq⟩ := Option.isSome_iff_exists.mp hsome
      refine ⟨⟨v, entries⟩, ?_, rfl, fun key val => hro _ key val, ?_, ?_⟩
      · simp [Store.GetImmutable, Store.VersionExists, Tree.VersionExists, hsome,
          Tree.GetImmutable, heq]
      · intro key; simp [Store.Delete, Tree.Remove]
      · intro key; simp [Store.Get, Tree.Get, Tree.GetVersioned, heq]
    | immutableT snap =>
      have hv : snap.version = v := by
        simpa [Store.VersionExists, Tree.VersionExists] using h
      refine ⟨snap, ?_, hv, fun key val => hro _ key val, ?_, ?_⟩
      · simp [Store.GetImmutable, Store.VersionExists, Tree.VersionExists, hv,
          Tree.GetImmutable]
      · intro key; simp [Store.Delete, Tree.Remove]
      · intro key; simp [Store.Get, Tree.Get, Tree.GetVersioned, hv]

/-- Witness for C5 at a concrete store: version 5 is missing, version 1
exists. -/
theorem getImmutable_total_witness :
    Store.GetImmutable oneCommitStore 5 = .ok ⟨.immutableT ⟨0, []⟩⟩ ∧
    (∃ snap, Store.GetImmutable oneCommitStore 1 = .ok ⟨.immutableT snap⟩ ∧
      snap.version = 1 ∧
      (∀ key val, (Store.Set ⟨.immutableT snap⟩ key val).1 = ⟨.immutableT snap⟩) ∧
      (∀ key, ((Store.Delete ⟨.immutableT snap⟩ key).2).isSome = true) ∧
      (∀ key, Store.Get ⟨.immutableT snap⟩ key =
        Tree.GetVersioned oneCommitStore.tree key 1)) :=
  ⟨(getImmutable_total oneCommitStore 5).1 rfl,
   (getImmutable_total oneCommitStore 1).2 rfl⟩

/-- C6: when the lookup found a value, `getProofFromTree` builds the
membership proof; when it found none, it builds the non-membership
proof; and when the matching proof type cannot be constructed (the flag
disagrees with the tree's contents) the outcome is a panic — the return
type `PanicOr` has no recoverable-error alternative. -/
theorem getProofFromTree_dispatch (snap : Snapshot) (k : Bytes) :
    (∀ v, kvGet snap.entries k = some v →
      getProofFromTree snap k true =
        .ok [mkIavlCommitmentOp k (.membership k v (treeHashOf snap.entries))] ∧
      ∃ m, getProofFromTree snap k false = .panicked m) ∧
    (kvGet snap.entries k = none →
      getProofFromTree snap k false =
        .ok [mkIavlCommitmentOp k (.nonMembership k (treeHashOf snap.entries))] ∧
      ∃ m, getProofFromTree snap k true = .panicked m) := by
  constructor
  · intro v hv
    refine ⟨by simp [getProofFromTree, getMembershipProof, hv], ?_⟩
    exact ⟨"unexpected error for nonexistence proof: " ++
      "cannot create NonExistenceProof: key is in state",
      by simp [getProofFromTree, getNonMembershipProof, hv]⟩
  · intro hv
    refine ⟨by simp [getProofFromTree, getNonMembershipProof, hv], ?_⟩
    exact ⟨"unexpected value for empty proof: " ++
      "cannot create ExistenceProof: key not in state",
      by simp [getProofFromTree, getMembershipProof, hv]⟩

/-- Witness for C6 at a concrete snapshot, for a present and an absent
key. -/
theorem getProofFromTree_dispatch_witness :
    (getProofFromTree ⟨1, [([1], [5])]⟩ [1] true =
      .ok [mkIavlCommitmentOp [1] (.membership [1] [5] (treeHashOf [([1], [5])]))] ∧
      ∃ m, getProofFromTree ⟨1, [([1], [5])]⟩ [1] false = .panicked m) ∧
    (getProofFromTree ⟨1, [([1], [5])]⟩ [2] false =
      .ok [mkIavlCommitmentOp [2] (.nonMembership [2] (treeHashOf [([1], [5])]))] ∧
      ∃ m, getProofFromTree ⟨1, [([1], [5])]⟩ [2] true = .panicked m) :=
  ⟨(getProofFromTree_dispatch ⟨1, [([1], [5])]⟩ [1]).1 [5] rfl,
   (getProofFromTree_dispatch ⟨1, [([1], [5])]⟩ [2]).2 rfl⟩

/-- C8 counterexample: on a store with zero commits, a `"/key"` query at
height 0 does not return the working state — the working store holds
`[7]` at key `[1]`, but the response carries no value and the "version
does not exist" log. -/
theorem query_zero_commits_ignores_working :
    Store.Query zeroCommitStore ⟨"/key", [1], 0, false⟩ =
      (zeroCommitStore,
        .ok { log := errVersionDoesNotExist, height := 0, key := [1] }) ∧
    Store.Get zeroCommitStore [1] = some [7] ∧
    (Store.Query zeroCommitStore ⟨"/key", [1], 0, false⟩).2 ≠
      .ok { height := 0, key := [1], value := some [7] } := by
  refine ⟨by decide, by decide, by decide⟩

/-- C8 amended: on a store with zero commits, a `"/key"` query with
height 0 resolves the height to 0, which is not a committed version, so
the response is the soft "version does not exist" outcome with an absent
value (the working state is not consulted). -/
theorem query_zero_commits_amended (ms : MutableState) (req : RequestQuery)
    (hv : ms.version = 0) (hc : ms.committed = []) (hpath : req.path = "/key")
    (hd : req.data ≠ []) (hh : req.height = 0) :
    Store.Query ⟨.mutableT ms⟩ req =
      (⟨.mutableT ms⟩,
        .ok { log := errVersionDoesNotExist, height := 0, key := req.data }) := by
  have hg : getHeight (.mutableT ms) req = 0 := by
    simp [getHeight, hh, Tree.Version, Tree.VersionExists, hv, hc, lookupVersion]
  have hver : Store.VersionExists ⟨.mutableT ms⟩ 0 = false := by
    simp [Store.VersionExists, Tree.VersionExists, hc, lookupVersion]
  unfold Store.Query queryKey
  simp [hpath, hd, hg, hver]

/-- Witness for the amended C8 at a concrete zero-commit store. -/
theorem query_zero_commits_amended_witness :
    Store.Query ⟨.mutableT ⟨0, [], [([1], [7])]⟩⟩ ⟨"/key", [1], 0, false⟩ =
      (⟨.mutableT ⟨0, [], [([1], [7])]⟩⟩,
        .ok { log := errVersionDoesNotExist, height := 0, key := [1] }) :=
  query_zero_commits_amended ⟨0, [], [([1], [7])]⟩ ⟨"/key", [1], 0, false⟩
    rfl rfl rfl (by decide) rfl

end IavlStore
